import Mathlib

/-!
Verification of the in-memory ShareDB adapter (`src/index.js`).

The store keeps, per `(collection, id)`, an append-only operation log and a
materialized snapshot, and exposes an optimistic-concurrency `commit`, the
readers `getSnapshot` / `getOps`, and a mingo-backed `query` surface.

Shallow embedding conventions:
* JS objects are association lists `List (String × _)` in insertion order;
  property update replaces the first binding in place or appends a new one,
  `delete` removes the binding, and `for ... in` iterates in list order
  (the keys appearing here are non-index strings, so JS insertion order applies).
* JS arrays that can receive out-of-bounds index writes (`opLog[op.v] = op`)
  are `List (Option α)`, `none` standing for a hole (and, after the JSON
  round-trip `clone`, for `null` — JSON serialization maps holes to null).
* `clone` in the source is `JSON.parse(JSON.stringify(x))`, which is the
  identity on JSON-representable values; the model's values are exactly
  those, so `clone` is the identity function here.
* callbacks: every store call runs synchronously against the state and
  reports through a deferred callback; the model returns the callback's
  arguments (and the updated state) directly.
-/

/-- JSON value: the document bodies, op payloads and query expressions the
store handles are JSON-representable values. Objects are association lists
in insertion order. -/
inductive JSON where
  | null : JSON
  | bool (b : Bool) : JSON
  | num (n : Int) : JSON
  | str (s : String) : JSON
  | arr (elems : List JSON) : JSON
  | obj (fields : List (String × JSON)) : JSON

/-- Truthiness of a JSON value under JavaScript coercion (`if (x)`):
null, false, 0 and the empty string are falsy; arrays and objects are
always truthy. -/
def jsTruthy : JSON → Bool
  | JSON.null => false
  | JSON.bool b => b
  | JSON.num n => n != 0
  | JSON.str s => s != ""
  | JSON.arr _ => true
  | JSON.obj _ => true

/-- clone, i.e. `JSON.parse(JSON.stringify(obj))`: the identity on the
JSON-representable values of this model. -/
def clone (j : JSON) : JSON := j

/-- Property read on a JS object (association list): the value bound to the
first occurrence of the key, if any. -/
def alookup {α : Type} : List (String × α) → String → Option α
  | [], _ => none
  | p :: rest, k => if p.1 = k then some p.2 else alookup rest k

/-- Property write on a JS object: replace the first binding of the key in
place, or append a new binding at the end. -/
def aset {α : Type} : List (String × α) → String → α → List (String × α)
  | [], k, v => [(k, v)]
  | p :: rest, k, v => if p.1 = k then (k, v) :: rest else p :: aset rest k v

/-- Property deletion on a JS object (`delete m[k]`). -/
def aerase {α : Type} : List (String × α) → String → List (String × α)
  | [], _ => []
  | p :: rest, k => if p.1 = k then aerase rest k else p :: aerase rest k

/-- Operation as the store sees it: an optional version field `v` (read by
`_writeOpSync` to choose the log slot) and an otherwise opaque payload. -/
structure MOp where
  v : Option Int
  payload : JSON

/-- Snapshot as supplied to `commit` and as stored in `docs`: version `v`,
optional `type` tag (absent/null meaning delete) and JSON `data`. -/
structure MSnapshot where
  v : Int
  type : Option String
  data : JSON

/-- Snapshot as returned to callers (`new MemorySnapshot(id, version, type, data)`). -/
structure MemorySnapshot where
  id : String
  v : Int
  type : Option String
  data : JSON

/-- Error object surfaced through a callback's error channel. -/
structure DBError where
  message : String
deriving Repr, DecidableEq

/-- Error returned by `_writeOpSync` when the op log is shorter than the
version being written requires (the source's message, typo included). -/
def consistencyError : DBError :=
  ⟨"Internal consistancy error - database missing parent version"⟩

/-- Outcome delivered by `commit`'s callback: `ok` is `callback(null, true)`,
`rejected` is `callback(null, false)`, `error e` is `callback(e)`. -/
inductive CommitResult where
  | ok : CommitResult
  | rejected : CommitResult
  | error (e : DBError) : CommitResult
deriving Repr, DecidableEq

/-- JS array index assignment `l[i] = x` for `i` an integer: a negative `i`
creates a non-index property and leaves the indexed contents unchanged;
`i < length` overwrites in place; `i ≥ length` pads with holes up to `i`
and sets `length` to `i + 1`. -/
def jsArraySetInt {α : Type} (l : List (Option α)) (i : Int) (x : α) : List (Option α) :=
  if i < 0 then l
  else
    let n := i.toNat
    if n < l.length then l.set n (some x)
    else l ++ List.replicate (n - l.length) none ++ [some x]

/-- `Array.prototype.slice(f, t)`: negative indices count from the end,
both bounds clamp to `[0, length]`, and the half-open range `[f, t)` is
returned. -/
def jsSlice {α : Type} (l : List α) (f t : Int) : List α :=
  let len : Int := l.length
  let f' := (if f < 0 then max (len + f) 0 else min f len).toNat
  let t' := (if t < 0 then max (len + t) 0 else min t len).toNat
  (l.take t').drop f'

/-- State of a `MemoryDB` instance: `docs` maps collection name → doc id →
stored snapshot, `ops` maps collection name → doc id → operation log
(a JS array whose indices are the versions), plus the advisory `closed`
flag. -/
structure MemoryDB where
  docs : List (String × List (String × MSnapshot))
  ops : List (String × List (String × List (Option MOp)))
  closed : Bool

/-- Freshly constructed store: both maps empty, not closed. -/
def MemoryDB.empty : MemoryDB := ⟨[], [], false⟩

/-- View of the stored snapshot at `(collection, id)`:
`this.docs[collection] && this.docs[collection][id]`. -/
def MemoryDB.docAt (db : MemoryDB) (collection id : String) : Option MSnapshot :=
  (alookup db.docs collection).bind (fun m => alookup m id)

/-- View of the op log at `(collection, id)`: the stored array, or the empty
log when the collection or the id has never been touched. -/
def MemoryDB.opLogAt (db : MemoryDB) (collection id : String) : List (Option MOp) :=
  ((alookup db.ops collection).bind (fun m => alookup m id)).getD []

/-- Truthiness of the `type` field (`!snapshot.type`): absent/null and the
empty string are falsy. -/
def strTruthy : Option String → Bool
  | none => false
  | some t => t != ""

/-- `close`: marks the store closed (advisory only; no call checks it). -/
def MemoryDB.close (db : MemoryDB) : MemoryDB := { db with closed := true }

/-- `_getVersionSync`: `(this.ops[c] && this.ops[c][id] && this.ops[c][id].length) || 0`.
An absent collection or id yields 0, which is also the length of the empty
log, so this is exactly the length of the `opLogAt` view. -/
def MemoryDB._getVersionSync (db : MemoryDB) (collection id : String) : Nat :=
  (db.opLogAt collection id).length

/-- `_getOpLogSync`: returns the op log for `(collection, id)`, materializing
missing `ops[collection]` and `ops[collection][id]` entries in the store
(the source's `x || (x = {})` / `|| (x = [])` idiom). -/
def MemoryDB._getOpLogSync (db : MemoryDB) (collection id : String) :
    List (Option MOp) × MemoryDB :=
  let collectionOps := (alookup db.ops collection).getD []
  let opLog := (alookup collectionOps id).getD []
  let newOps := aset db.ops collection (aset collectionOps id opLog)
  (opLog, { db with ops := newOps })

/-- Store a (possibly freshly materialized) op log back at `(collection, id)`:
the effect of mutating the array object aliased inside `this.ops`. -/
def MemoryDB.putLog (db : MemoryDB) (collection id : String) (log : List (Option MOp)) :
    MemoryDB :=
  let newOps := aset db.ops collection (aset ((alookup db.ops collection).getD []) id log)
  { db with ops := newOps }

/-- `_writeOpSync`: fetches the op log (materializing it), errors with
`consistencyError` when `opLog.length < op.v - 1`, otherwise performs
`opLog[op.v] = op`. When `op.v` is absent, the length check compares with
`NaN` (false) and the assignment `opLog[undefined]` creates a non-index
property, leaving the indexed contents unchanged. -/
def MemoryDB._writeOpSync (db : MemoryDB) (collection id : String) (op : MOp) :
    Option DBError × MemoryDB :=
  let p := db._getOpLogSync collection id
  match op.v with
  | none => (none, p.2)
  | some v =>
    if (p.1.length : Int) < v - 1 then (some consistencyError, p.2)
    else (none, p.2.putLog collection id (jsArraySetInt p.1 v op))

/-- `_writeSnapshotSync`: materializes `docs[collection]`, then deletes the
id's entry when `snapshot.type` is falsy, or stores a clone of the snapshot
otherwise. Never returns an error (`err` is always undefined in the source). -/
def MemoryDB._writeSnapshotSync (db : MemoryDB) (collection id : String)
    (snapshot : MSnapshot) : MemoryDB :=
  let collectionDocs := (alookup db.docs collection).getD []
  if strTruthy snapshot.type then
    let stored : MSnapshot := ⟨snapshot.v, snapshot.type, clone snapshot.data⟩
    let newDocs := aset db.docs collection (aset collectionDocs id stored)
    { db with docs := newDocs }
  else
    let newDocs := aset db.docs collection (aerase collectionDocs id)
    { db with docs := newDocs }

/-- `_getSnapshotSync`: a clone of the stored snapshot, or the sentinel
`MemorySnapshot(id, version, null, null)` with `version` from the op-log
length when no snapshot is stored. -/
def MemoryDB._getSnapshotSync (db : MemoryDB) (collection id : String) : MemorySnapshot :=
  match db.docAt collection id with
  | some doc => ⟨id, doc.v, doc.type, clone doc.data⟩
  | none => ⟨id, (db._getVersionSync collection id : Int), none, JSON.null⟩

/-- `commit(collection, id, op, snapshot, callback)`: rejects with
`callback(null, false)` unless `snapshot.v === version + 1`; on acceptance
writes the op (surfacing a `_writeOpSync` error and skipping the snapshot
write), then writes the snapshot and reports `callback(null, true)`. -/
def MemoryDB.commit (db : MemoryDB) (collection id : String) (op : MOp)
    (snapshot : MSnapshot) : CommitResult × MemoryDB :=
  let version := db._getVersionSync collection id
  if snapshot.v ≠ (version : Int) + 1 then (CommitResult.rejected, db)
  else
    match db._writeOpSync collection id op with
    | (some e, db1) => (CommitResult.error e, db1)
    | (none, db1) => (CommitResult.ok, db1._writeSnapshotSync collection id snapshot)

/-- `getSnapshot(collection, id, fields, callback)`: always calls back with
`(null, snapshot)`; `fields` is accepted but unused. -/
def MemoryDB.getSnapshot (db : MemoryDB) (collection id : String) (fields : JSON) :
    Option DBError × MemorySnapshot :=
  (none, db._getSnapshotSync collection id)

/-- `getOps(collection, id, from, to, callback)`: fetches the op log
(materializing it), defaults `to` to the log length when null, and calls
back with `(null, clone(opLog.slice(from, to)))`; the clone is the identity
here, with array holes in the slice standing for the nulls the JSON
round-trip produces. -/
def MemoryDB.getOps (db : MemoryDB) (collection id : String) (f : Int) (t : Option Int) :
    (Option DBError × List (Option MOp)) × MemoryDB :=
  let p := db._getOpLogSync collection id
  let t' := t.getD (p.1.length : Int)
  ((none, jsSlice p.1 f t'), p.2)

/-- Properties of `Object.prototype`, inherited by every plain object
literal: a JS property read `obj[key]` on an object without an own binding
for `key` still finds these, and each of them is a function (or, for
`__proto__`, an object), hence truthy. -/
def objectProtoKeys (key : String) : Bool :=
  key = "constructor" || key = "hasOwnProperty" || key = "isPrototypeOf" ||
  key = "propertyIsEnumerable" || key = "toLocaleString" || key = "toString" ||
  key = "valueOf" || key = "__proto__" || key = "__defineGetter__" ||
  key = "__defineSetter__" || key = "__lookupGetter__" || key = "__lookupSetter__"

/-- Truthiness of the JS lookup `metaOperators[key]` on the `metaOperators`
object literal: true for its twelve own keys (each bound to `true`) and for
the truthy properties the literal inherits from `Object.prototype`, which
the in-operator-position lookup also finds. -/
def metaOperators (key : String) : Bool :=
  key = "$comment" || key = "$explain" || key = "$hint" || key = "$maxScan" ||
  key = "$max" || key = "$min" || key = "$orderby" || key = "$returnKey" ||
  key = "$showDiskLoc" || key = "$snapshot" || key = "$count" || key = "$aggregate" ||
  objectProtoKeys key

/-- Lookup `cursorOperators[key]` on the `cursorOperators` object literal:
`$limit → limit`, `$skip → skip`. The JS lookup would also find the truthy
`Object.prototype` properties, but `normalizeQuery` consults this table only
after `metaOperators[key]` tested falsy, which excludes exactly those keys,
so the `none` result is only ever used on keys with no binding at all. -/
def cursorOperators (key : String) : Option String :=
  if key = "$limit" then some "limit"
  else if key = "$skip" then some "skip"
  else none

/-- Loop body of `normalizeQuery`'s flat branch, iterating the expression's
keys in insertion order over the accumulated canonical query (which starts
as `{$query: {}}`). The `| _ => []` arms mirror `query.$findOptions || {}`
and read `$query`, whose values this code only ever sets to objects. -/
def normFlat (query : List (String × JSON)) :
    List (String × JSON) → List (String × JSON)
  | [] => query
  | (key, v) :: rest =>
    if metaOperators key then normFlat (aset query key v) rest
    else
      match cursorOperators key with
      | some target =>
        let findOptions :=
          match alookup query "$findOptions" with
          | some (JSON.obj fo) => fo
          | _ => []
        normFlat (aset query "$findOptions" (JSON.obj (aset findOptions target v))) rest
      | none =>
        let qf :=
          match alookup query "$query" with
          | some (JSON.obj qf) => qf
          | _ => []
        normFlat (aset query "$query" (JSON.obj (aset qf key v))) rest

/-- `normalizeQuery`: an expression with a truthy `$query` is already
canonical and is cloned as-is (the clone is the identity here); otherwise
each top-level key is bucketed into meta-operator / `$findOptions` /
`$query` starting from `{$query: {}}`. -/
def normalizeQuery (expression : List (String × JSON)) : List (String × JSON) :=
  if jsTruthy ((alookup expression "$query").getD JSON.null) then expression
  else normFlat [("$query", JSON.obj [])] expression

/-- Extra (third) argument of `query`'s callback: an aggregation result or a
match count. In plain find mode it is not passed at all. -/
inductive QueryExtra where
  | agg (result : JSON)
  | count (n : Nat)

/-- Arguments of `query`'s success callback: the snapshot list and the
optional extra channel. -/
structure QueryOut where
  snapshots : List MemorySnapshot
  extra : Option QueryExtra

/-- `query(collection, query, fields, options, callback)`, parameterized by
the external mingo evaluator: `mfind sel data` abstracts whether
`new Mingo.Query(sel)` matches a candidate document, applied pointwise and
order-preserving over the candidate list, and `magg pipeline datas`
abstracts `new Mingo.Aggregator(pipeline).run(datas)`.

The candidate set is every stored snapshot of the collection, read through
`_getSnapshotSync` in the map's insertion order; a missing collection
iterates zero times (`for ... in undefined`). In find mode the source tags
each candidate's data with a `__snapshot` back-reference and resolves each
match back through it; this model matches on the snapshot's data and keeps
the originating snapshot directly, which is the same resolution (the
reference-level mechanics of the tag are modeled by `queryFindHeap`). -/
def MemoryDB.query (db : MemoryDB) (mfind : JSON → JSON → Bool)
    (magg : JSON → List JSON → JSON) (collection : String)
    (q : List (String × JSON)) : QueryOut :=
  let collectionDocs := (alookup db.docs collection).getD []
  let nq := normalizeQuery q
  if jsTruthy ((alookup nq "$aggregate").getD JSON.null) then
    let datas := collectionDocs.map (fun p => (db._getSnapshotSync collection p.1).data)
    ⟨[], some (QueryExtra.agg (magg ((alookup nq "$aggregate").getD JSON.null) datas))⟩
  else
    let cands := collectionDocs.map (fun p => db._getSnapshotSync collection p.1)
    let sel := (alookup nq "$query").getD JSON.null
    let results := cands.filter (fun s => mfind sel s.data)
    if jsTruthy ((alookup nq "$count").getD JSON.null) then
      ⟨[], some (QueryExtra.count results.length)⟩
    else ⟨results, none⟩

/-- Heap value: a plain JSON value or a reference to a heap object. Used by
the reference-level model of `query`'s find mode, where the back-reference
`data.__snapshot = snapshot` creates a cyclic object graph that pure values
cannot represent. -/
inductive HVal where
  | prim (j : JSON)
  | ref (a : Nat)

/-- Heap object: a JS object as an association list of heap values. -/
abbrev HObj := List (String × HVal)

/-- Heap: addresses are list indices; allocation appends. -/
abbrev Heap := List HObj

/-- Stored snapshot as the reference-level query model consumes it: its
`data` must be a JS object (the source dereferences `data.__snapshot = ...`,
which throws on null/undefined data and silently no-ops only on other
primitives). -/
structure HDoc where
  v : Int
  type : String
  data : List (String × JSON)

/-- Field read through the heap: `heap[a][k]`. -/
def hlookup (h : Heap) (a : Nat) (k : String) : Option HVal :=
  (h.get? a).bind (fun o => alookup o k)

/-- Candidate-building loop of `query`'s find mode at the reference level:
for each stored doc, allocate the cloned data object, allocate the
`MemorySnapshot` whose `data` field references it, then assign the
`__snapshot` property on the data object (replacing any same-named field the
committed document body carried) to reference the snapshot. Returns the
final heap and, per candidate, the data object's address paired with the
original document body. -/
def buildCands : List (String × HDoc) → Heap →
    Heap × List (Nat × List (String × JSON))
  | [], h => (h, [])
  | (id, doc) :: rest, h =>
    let d := h.length
    let s := h.length + 1
    let dataObj : HObj :=
      aset (doc.data.map (fun p => (p.1, HVal.prim p.2))) "__snapshot" (HVal.ref s)
    let snapObj : HObj :=
      [("id", HVal.prim (JSON.str id)), ("v", HVal.prim (JSON.num doc.v)),
       ("type", HVal.prim (JSON.str doc.type)), ("data", HVal.ref d)]
    let p := buildCands rest (h ++ [dataObj, snapObj])
    (p.1, (d, doc.data) :: p.2)

/-- Find mode of `query` (no `$count`, no `$aggregate`) at the reference
level: build the tagged candidates, let the evaluator select matches
(abstracted as a pointwise predicate on the original document body), and
resolve each match to its snapshot by reading `result.__snapshot`. The
fallback address `heap.length` in the resolution is dead code (the
`__snapshot` read always yields a reference, as proved below). -/
def queryFindHeap (docs : List (String × HDoc))
    (p : List (String × JSON) → Bool) : Heap × List Nat :=
  let b := buildCands docs []
  let results := b.2.filter (fun c => p c.2)
  let snaps := results.map (fun c =>
    match hlookup b.1 c.1 "__snapshot" with
    | some (HVal.ref a) => a
    | _ => b.1.length)
  (b.1, snaps)

/-- The spec's per-document invariant: the version any caller sees through
the snapshot read path equals the current length of that document's
operation log. -/
def versionInvariant (db : MemoryDB) : Prop :=
  ∀ collection id,
    (db._getSnapshotSync collection id).v = ((db._getVersionSync collection id : Nat) : Int)

/-- Concrete op `{v: 0, ...}` used by the counterexample runs. -/
def cexOpA : MOp := ⟨some 0, JSON.str "A"⟩

/-- A second concrete op also carrying `v: 0`. -/
def cexOpB : MOp := ⟨some 0, JSON.str "B"⟩

/-- Store after one well-formed commit of `cexOpA` at version 1. -/
def cexDb1 : MemoryDB :=
  (MemoryDB.empty.commit "c" "d" cexOpA ⟨1, some "json", JSON.obj [("x", JSON.num 1)]⟩).2

/-- Second commit: version check passes (`snapshot.v = 2 = 1 + 1`) but the
op's own `v: 0` points the log write at slot 0. -/
def cexRun2 : CommitResult × MemoryDB :=
  cexDb1.commit "c" "d" cexOpB ⟨2, some "json", JSON.obj [("x", JSON.num 2)]⟩

/-- Match-all stand-in for the external evaluator. -/
def mfindAll : JSON → JSON → Bool := fun _ _ => true

/-- Trivial stand-in for the external aggregation evaluator. -/
def maggNull : JSON → List JSON → JSON := fun _ _ => JSON.null

/-- Two-document collection `"q"` used to exercise the query executor. -/
def c9db : MemoryDB :=
  ⟨[("q", [("a", ⟨1, some "json", JSON.obj [("n", JSON.num 1)]⟩),
           ("b", ⟨1, some "json", JSON.obj [("n", JSON.num 2)]⟩)])],
   [("q", [("a", [some ⟨some 0, JSON.null⟩]), ("b", [some ⟨some 0, JSON.null⟩])])],
   false⟩

theorem alookup_aset_self {α : Type} (m : List (String × α)) (k : String) (v : α) :
    alookup (aset m k v) k = some v := by
  induction m with
  | nil => simp [aset, alookup]
  | cons p rest ih =>
    by_cases h : p.1 = k
    · simp [aset, h, alookup]
    · simp [aset, h, alookup, ih]

theorem alookup_aset_ne {α : Type} (m : List (String × α)) (k k' : String) (v : α)
    (h : k' ≠ k) : alookup (aset m k v) k' = alookup m k' := by
  have h' : ¬ k = k' := fun hh => h hh.symm
  induction m with
  | nil => simp [aset, alookup, h']
  | cons p rest ih =>
    by_cases hp : p.1 = k
    · simp [aset, hp, alookup, h']
    · by_cases hp' : p.1 = k'
      · simp [aset, hp, alookup, hp', h]
      · simp [aset, hp, alookup, hp', ih]

theorem alookup_aerase_self {α : Type} (m : List (String × α)) (k : String) :
    alookup (aerase m k) k = none := by
  induction m with
  | nil => simp [aerase, alookup]
  | cons p rest ih =>
    by_cases h : p.1 = k
    · simpa [aerase, h] using ih
    · simpa [aerase, h, alookup] using ih

theorem alookup_aerase_ne {α : Type} (m : List (String × α)) (k k' : String)
    (h : k' ≠ k) : alookup (aerase m k) k' = alookup m k' := by
  have h' : ¬ k = k' := fun hh => h hh.symm
  induction m with
  | nil => simp [aerase, alookup]
  | cons p rest ih =>
    by_cases hp : p.1 = k
    · simp [aerase, hp, alookup, h', ih]
    · by_cases hp' : p.1 = k'
      · simp [aerase, hp, alookup, hp', h]
      · simp [aerase, hp, alookup, hp', ih]

theorem getOpLogSync_fst (db : MemoryDB) (c i : String) :
    (db._getOpLogSync c i).1 = db.opLogAt c i := by
  unfold MemoryDB._getOpLogSync MemoryDB.opLogAt
  cases h : alookup db.ops c <;> simp [h, alookup]

theorem opLogAt_getOpLogSync_snd (db : MemoryDB) (c i c' i' : String) :
    ((db._getOpLogSync c i).2).opLogAt c' i' = db.opLogAt c' i' := by
  unfold MemoryDB._getOpLogSync MemoryDB.opLogAt
  by_cases hc : c' = c
  · subst hc
    by_cases hi : i' = i
    · subst hi
      cases h : alookup db.ops c' <;> simp [h, alookup_aset_self, alookup]
    · cases h : alookup db.ops c' <;>
        simp [h, alookup_aset_self, alookup_aset_ne _ _ _ _ hi, alookup, Ne.symm hi]
  · simp [alookup_aset_ne _ _ _ _ hc]

theorem docAt_getOpLogSync_snd (db : MemoryDB) (c i c' i' : String) :
    ((db._getOpLogSync c i).2).docAt c' i' = db.docAt c' i' := rfl

theorem opLogAt_putLog_self (db : MemoryDB) (c i : String) (l : List (Option MOp)) :
    (db.putLog c i l).opLogAt c i = l := by
  unfold MemoryDB.putLog MemoryDB.opLogAt
  simp [alookup_aset_self]

theorem opLogAt_putLog_ne (db : MemoryDB) (c i c' i' : String) (l : List (Option MOp))
    (h : c' ≠ c ∨ i' ≠ i) : (db.putLog c i l).opLogAt c' i' = db.opLogAt c' i' := by
  unfold MemoryDB.putLog MemoryDB.opLogAt
  by_cases hc : c' = c
  · subst hc
    rcases h with h | hi
    · exact absurd rfl h
    · cases hm : alookup db.ops c' <;>
        simp [hm, alookup_aset_self, alookup_aset_ne _ _ _ _ hi, alookup, Ne.symm hi]
  · simp [alookup_aset_ne _ _ _ _ hc]

theorem docAt_putLog (db : MemoryDB) (c i c' i' : String) (l : List (Option MOp)) :
    (db.putLog c i l).docAt c' i' = db.docAt c' i' := rfl

theorem docAt_writeSnap_self_truthy (db : MemoryDB) (c i : String) (s : MSnapshot)
    (h : strTruthy s.type = true) :
    (db._writeSnapshotSync c i s).docAt c i = some ⟨s.v, s.type, s.data⟩ := by
  unfold MemoryDB._writeSnapshotSync MemoryDB.docAt
  simp [h, alookup_aset_self, clone]

theorem docAt_writeSnap_self_falsy (db : MemoryDB) (c i : String) (s : MSnapshot)
    (h : strTruthy s.type = false) :
    (db._writeSnapshotSync c i s).docAt c i = none := by
  unfold MemoryDB._writeSnapshotSync MemoryDB.docAt
  simp [h, alookup_aset_self, alookup_aerase_self]

theorem docAt_writeSnap_ne (db : MemoryDB) (c i c' i' : String) (s : MSnapshot)
    (h : c' ≠ c ∨ i' ≠ i) :
    (db._writeSnapshotSync c i s).docAt c' i' = db.docAt c' i' := by
  unfold MemoryDB._writeSnapshotSync MemoryDB.docAt
  by_cases hc : c' = c
  · subst hc
    rcases h with h | hi
    · exact absurd rfl h
    · cases hm : alookup db.docs c' <;>
        cases ht : strTruthy s.type <;>
          simp [hm, ht, alookup_aset_self, alookup_aset_ne _ _ _ _ hi,
            alookup_aerase_ne _ _ _ hi, alookup, Ne.symm hi]
  · cases ht : strTruthy s.type <;> simp [ht, alookup_aset_ne _ _ _ _ hc]

theorem opLogAt_writeSnap (db : MemoryDB) (c i c' i' : String) (s : MSnapshot) :
    (db._writeSnapshotSync c i s).opLogAt c' i' = db.opLogAt c' i' := by
  unfold MemoryDB._writeSnapshotSync
  cases ht : strTruthy s.type <;> simp [ht, MemoryDB.opLogAt]

theorem writeOpSync_absent (db : MemoryDB) (c i : String) (op : MOp)
    (h : op.v = none) :
    db._writeOpSync c i op = (none, (db._getOpLogSync c i).2) := by
  unfold MemoryDB._writeOpSync
  simp [h]

theorem writeOpSync_err (db : MemoryDB) (c i : String) (op : MOp) (v : Int)
    (h : op.v = some v) (hlt : ((db.opLogAt c i).length : Int) < v - 1) :
    db._writeOpSync c i op = (some consistencyError, (db._getOpLogSync c i).2) := by
  simp only [MemoryDB._writeOpSync, h, getOpLogSync_fst]
  simp [hlt]

theorem writeOpSync_ok (db : MemoryDB) (c i : String) (op : MOp) (v : Int)
    (h : op.v = some v) (hge : ¬ ((db.opLogAt c i).length : Int) < v - 1) :
    db._writeOpSync c i op =
      (none, ((db._getOpLogSync c i).2).putLog c i
        (jsArraySetInt (db.opLogAt c i) v op)) := by
  simp only [MemoryDB._writeOpSync, h, getOpLogSync_fst]
  simp [hge]

theorem jsArraySetInt_append (l : List (Option MOp)) (x : MOp) :
    jsArraySetInt l (l.length : Int) x = l ++ [some x] := by
  unfold jsArraySetInt
  simp

theorem getVersionSync_eq (db : MemoryDB) (c i : String) :
    db._getVersionSync c i = (db.opLogAt c i).length := rfl

theorem commit_rejected_eq (db : MemoryDB) (c i : String) (op : MOp) (s : MSnapshot)
    (h : s.v ≠ ((db._getVersionSync c i : Nat) : Int) + 1) :
    db.commit c i op s = (CommitResult.rejected, db) := by
  unfold MemoryDB.commit
  simp [h]

theorem jsSlice_nat {α : Type} (l : List α) (f t : Nat) :
    jsSlice l (f : Int) (t : Int) = (l.take t).drop f := by
  unfold jsSlice
  have hf : ¬ (f : Int) < 0 := by omega
  have ht : ¬ (t : Int) < 0 := by omega
  simp only [hf, ht, if_false]
  have hf' : (min (f : Int) (l.length : Int)).toNat = min f l.length := by omega
  have ht' : (min (t : Int) (l.length : Int)).toNat = min t l.length := by omega
  rw [hf', ht']
  have htake : l.take (min t l.length) = l.take t := by
    rcases le_total t l.length with h | h
    · rw [min_eq_left h]
    · rw [min_eq_right h, List.take_length, List.take_of_length_le h]
  rw [htake]
  rcases le_total f l.length with h | h
  · rw [min_eq_left h]
  · rw [min_eq_right h]
    have h1 : (l.take t).length ≤ l.length := by
      simp [List.length_take]
    rw [List.drop_eq_nil_of_le h1, List.drop_eq_nil_of_le (le_trans h1 h)]

theorem getOps_eq (db : MemoryDB) (c i : String) (f : Int) (t : Option Int) :
    db.getOps c i f t =
      ((none, jsSlice (db.opLogAt c i) f
          (t.getD ((db.opLogAt c i).length : Int))), (db._getOpLogSync c i).2) := by
  simp only [MemoryDB.getOps, getOpLogSync_fst]

theorem getSnapshotSync_ext (db1 db0 : MemoryDB) (c i : String)
    (hd : db1.docAt c i = db0.docAt c i) (ho : db1.opLogAt c i = db0.opLogAt c i) :
    db1._getSnapshotSync c i = db0._getSnapshotSync c i := by
  unfold MemoryDB._getSnapshotSync MemoryDB._getVersionSync
  rw [hd, ho]

/-- C1: a commit whose snapshot version is not `currentVersion + 1` reports
`callback(null, false)` — no error, not accepted — and returns the store
unchanged: the op log and the stored snapshot of every document, this one
included, are exactly as before the call. -/
theorem c1_version_conflict_rejected (db : MemoryDB) (c i : String) (op : MOp)
    (s : MSnapshot) (h : s.v ≠ ((db._getVersionSync c i : Nat) : Int) + 1) :
    db.commit c i op s = (CommitResult.rejected, db) :=
  commit_rejected_eq db c i op s h

/-- Witness for C1 at a concrete input: committing `snapshot.v = 5` onto a
fresh document (current version 0) is rejected without touching the store. -/
theorem c1_version_conflict_rejected_witness :
    (5 : Int) ≠ ((MemoryDB.empty._getVersionSync "c" "d" : Nat) : Int) + 1 ∧
    MemoryDB.empty.commit "c" "d" cexOpA ⟨5, some "json", JSON.null⟩ =
      (CommitResult.rejected, MemoryDB.empty) :=
  ⟨by decide, c1_version_conflict_rejected _ _ _ _ _ (by decide)⟩

/-- C3 counterexample: with one op in the log (`currentVersion = 1`), a
commit carrying `snapshot.v = 2` and `op.v = 0` passes the version check and
is accepted, yet the op is written at slot 0 (overwriting `cexOpA`), not at
slot `currentVersion = 1`: the log is still `[cexOpB]` of length 1. The op's
own version field is what determines placement. -/
theorem c3_op_slot_counterexample :
    cexDb1._getVersionSync "c" "d" = 1 ∧
    cexRun2.1 = CommitResult.ok ∧
    (cexRun2.2).opLogAt "c" "d" = [some cexOpB] :=
  ⟨rfl, rfl, rfl⟩

/-- C3 amended: an accepted commit stores the op at slot `op.v`; in the
protocol's intended use, where the caller sets `op.v = currentVersion`, the
op is appended at slot `currentVersion`. -/
theorem c3_op_slot_from_op_version (db : MemoryDB) (c i : String) (op : MOp)
    (s : MSnapshot)
    (hopv : op.v = some ((db._getVersionSync c i : Nat) : Int))
    (hsv : s.v = ((db._getVersionSync c i : Nat) : Int) + 1) :
    (db.commit c i op s).1 = CommitResult.ok ∧
    ((db.commit c i op s).2).opLogAt c i = db.opLogAt c i ++ [some op] ∧
    (((db.commit c i op s).2).opLogAt c i).get? (db._getVersionSync c i) =
      some (some op) := by
  rw [getVersionSync_eq] at hopv hsv
  have hnotlt : ¬ ((db.opLogAt c i).length : Int) < ((db.opLogAt c i).length : Int) - 1 := by
    omega
  have hw := writeOpSync_ok db c i op _ hopv hnotlt
  have hc : db.commit c i op s =
      (CommitResult.ok,
        ((((db._getOpLogSync c i).2).putLog c i
          (jsArraySetInt (db.opLogAt c i) ((db.opLogAt c i).length : Int) op))._writeSnapshotSync c i s)) := by
    unfold MemoryDB.commit
    rw [getVersionSync_eq]
    simp [hsv, hw]
  have hlog : ((db.commit c i op s).2).opLogAt c i = db.opLogAt c i ++ [some op] := by
    rw [hc]
    rw [opLogAt_writeSnap, opLogAt_putLog_self, jsArraySetInt_append]
  refine ⟨by rw [hc], hlog, ?_⟩
  rw [getVersionSync_eq, hlog]
  simp

/-- Witness for C3's amended theorem: committing `cexOpA` (`v: 0`) with
`snapshot.v = 1` on a fresh document appends it at slot 0. -/
theorem c3_op_slot_from_op_version_witness :
    (MemoryDB.empty.commit "c" "d" cexOpA
        ⟨1, some "json", JSON.obj [("x", JSON.num 1)]⟩).1 = CommitResult.ok ∧
    ((MemoryDB.empty.commit "c" "d" cexOpA
        ⟨1, some "json", JSON.obj [("x", JSON.num 1)]⟩).2).opLogAt "c" "d" =
      MemoryDB.empty.opLogAt "c" "d" ++ [some cexOpA] ∧
    (((MemoryDB.empty.commit "c" "d" cexOpA
        ⟨1, some "json", JSON.obj [("x", JSON.num 1)]⟩).2).opLogAt "c" "d").get?
        (MemoryDB.empty._getVersionSync "c" "d") = some (some cexOpA) :=
  c3_op_slot_from_op_version MemoryDB.empty "c" "d" cexOpA _ rfl rfl

/-- C4: when the version check passes but the op log is shorter than
`op.v - 1`, the commit calls back with the `ConsistencyError` on the error
channel, skips the snapshot write (the `docs` map is untouched), and leaves
every document's op log as it was (the call can at most materialize an
empty log entry, which no view distinguishes from an absent one). -/
theorem c4_consistency_error (db : MemoryDB) (c i : String) (op : MOp) (s : MSnapshot)
    (v : Int) (hv : op.v = some v)
    (hpass : s.v = ((db._getVersionSync c i : Nat) : Int) + 1)
    (hshort : ((db.opLogAt c i).length : Int) < v - 1) :
    (db.commit c i op s).1 = CommitResult.error consistencyError ∧
    ((db.commit c i op s).2).docs = db.docs ∧
    ∀ c' i', ((db.commit c i op s).2).opLogAt c' i' = db.opLogAt c' i' := by
  have hcommit : db.commit c i op s =
      (CommitResult.error consistencyError, (db._getOpLogSync c i).2) := by
    unfold MemoryDB.commit
    simp [hpass, writeOpSync_err db c i op v hv hshort]
  rw [hcommit]
  exact ⟨rfl, rfl, fun c' i' => opLogAt_getOpLogSync_snd db c i c' i'⟩

/-- Witness for C4: on a fresh document, `op.v = 5` with `snapshot.v = 1`
passes the version check (1 = 0 + 1) and trips the consistency check
(0 < 5 - 1). -/
theorem c4_consistency_error_witness :
    (MemoryDB.empty.commit "c" "d" ⟨some 5, JSON.null⟩ ⟨1, some "json", JSON.null⟩).1 =
      CommitResult.error consistencyError ∧
    ((MemoryDB.empty.commit "c" "d" ⟨some 5, JSON.null⟩
        ⟨1, some "json", JSON.null⟩).2).docs = MemoryDB.empty.docs ∧
    ((MemoryDB.empty.commit "c" "d" ⟨some 5, JSON.null⟩
        ⟨1, some "json", JSON.null⟩).2).opLogAt "c" "d" =
      MemoryDB.empty.opLogAt "c" "d" := by
  have h := c4_consistency_error MemoryDB.empty "c" "d" ⟨some 5, JSON.null⟩
    ⟨1, some "json", JSON.null⟩ 5 rfl (by decide) (by decide)
  exact ⟨h.1, h.2.1, h.2.2 "c" "d"⟩

/-- C5: `getSnapshot` on a document with no stored snapshot never reports an
error and returns the sentinel: version equal to the op-log length, absent
type, null data; on a never-committed id the version is 0. -/
theorem c5_missing_snapshot_sentinel (db : MemoryDB) (c i : String) (fields : JSON)
    (h : db.docAt c i = none) :
    db.getSnapshot c i fields =
      (none, ⟨i, ((db.opLogAt c i).length : Int), none, JSON.null⟩) ∧
    MemoryDB.empty.getSnapshot c i fields = (none, ⟨i, 0, none, JSON.null⟩) := by
  constructor
  · unfold MemoryDB.getSnapshot MemoryDB._getSnapshotSync
    rw [h]
    rfl
  · rfl

theorem commit_accepted_eq (db : MemoryDB) (c i : String) (op : MOp) (s : MSnapshot)
    (hopv : op.v = some ((db.opLogAt c i).length : Int))
    (hsv : s.v = ((db.opLogAt c i).length : Int) + 1) :
    db.commit c i op s =
      (CommitResult.ok,
        ((((db._getOpLogSync c i).2).putLog c i
          (db.opLogAt c i ++ [some op]))._writeSnapshotSync c i s)) := by
  have hnotlt : ¬ ((db.opLogAt c i).length : Int) <
      ((db.opLogAt c i).length : Int) - 1 := by omega
  have hw := writeOpSync_ok db c i op _ hopv hnotlt
  unfold MemoryDB.commit
  rw [getVersionSync_eq]
  simp [hsv, hw, jsArraySetInt_append]

/-- Witness for C5 on a concrete fresh store and id. -/
theorem c5_missing_snapshot_sentinel_witness :
    MemoryDB.empty.docAt "c" "d" = none ∧
    MemoryDB.empty.getSnapshot "c" "d" JSON.null =
      (none, ⟨"d", ((MemoryDB.empty.opLogAt "c" "d").length : Int), none, JSON.null⟩) :=
  ⟨rfl, (c5_missing_snapshot_sentinel MemoryDB.empty "c" "d" JSON.null rfl).1⟩

/-- C6: `getOps` returns the half-open range `[from, to)` of the log (as
value copies), the full tail `[from, N)` when `to` is null, and an empty
list — not an error — when `from` is at or beyond the end of the log. -/
theorem c6_getOps_range (db : MemoryDB) (c i : String) (f t : Nat) :
    ((db.getOps c i (f : Int) (some (t : Int))).1.2 =
      ((db.opLogAt c i).take t).drop f) ∧
    ((db.getOps c i (f : Int) none).1.2 = (db.opLogAt c i).drop f) ∧
    ((db.opLogAt c i).length ≤ f →
      (db.getOps c i (f : Int) (some (t : Int))).1.2 = []) := by
  refine ⟨?_, ?_, ?_⟩
  · rw [getOps_eq]
    simp [jsSlice_nat]
  · rw [getOps_eq]
    have : (Option.getD none ((db.opLogAt c i).length : Int)) =
        (((db.opLogAt c i).length : Nat) : Int) := rfl
    rw [this, jsSlice_nat, List.take_length]
  · intro hf
    rw [getOps_eq]
    simp only [Option.getD_some, jsSlice_nat]
    apply List.drop_eq_nil_of_le
    calc ((db.opLogAt c i).take t).length ≤ (db.opLogAt c i).length := by
          simp [List.length_take]
      _ ≤ f := hf

/-- Witness for C6 on a concrete two-op log, including a range beyond the
log end. -/
theorem c6_getOps_range_witness :
    ((cexDb1.getOps "c" "d" (0 : Int) (some (1 : Int))).1.2 =
      ((cexDb1.opLogAt "c" "d").take 1).drop 0) ∧
    ((cexDb1.getOps "c" "d" (0 : Int) none).1.2 = (cexDb1.opLogAt "c" "d").drop 0) ∧
    ((cexDb1.getOps "c" "d" (7 : Int) (some (9 : Int))).1.2 = []) := by
  have h0 := c6_getOps_range cexDb1 "c" "d" 0 1
  have h7 := c6_getOps_range cexDb1 "c" "d" 7 9
  exact ⟨h0.1, h0.2.1, h7.2.2 (by decide)⟩

/-- C2 counterexample: two commits, each reporting success, whose second op
carries `v: 0` and so overwrites log slot 0 instead of appending; afterwards
`getSnapshot` reports version 2 while the op log has length 1, so the
version/log-length equality fails after this sequence of commit calls. -/
theorem c2_version_invariant_counterexample :
    (MemoryDB.empty.commit "c" "d" cexOpA
        ⟨1, some "json", JSON.obj [("x", JSON.num 1)]⟩).1 = CommitResult.ok ∧
    cexRun2.1 = CommitResult.ok ∧
    ((cexRun2.2).getSnapshot "c" "d" JSON.null).2.v = 2 ∧
    ((cexRun2.2).opLogAt "c" "d").length = 1 ∧
    ((cexRun2.2).getSnapshot "c" "d" JSON.null).2.v ≠
      (((cexRun2.2).opLogAt "c" "d").length : Int) :=
  ⟨rfl, rfl, rfl, rfl, by decide⟩

/-- C2 amended: the version/log-length invariant holds initially and is
preserved by every commit whose op carries `op.v` equal to the document's
current version (the contract the calling protocol maintains); under that
proviso the version reported by the snapshot read path always equals the
op-log length, in particular after every successful commit. -/
theorem c2_version_invariant :
    versionInvariant MemoryDB.empty ∧
    ∀ (db : MemoryDB) (c i : String) (op : MOp) (s : MSnapshot),
      versionInvariant db →
      op.v = some ((db._getVersionSync c i : Nat) : Int) →
      versionInvariant (db.commit c i op s).2 := by
  constructor
  · intro c i
    rfl
  · intro db c i op s hinv hopv
    rw [getVersionSync_eq] at hopv
    by_cases hsv : s.v = ((db.opLogAt c i).length : Int) + 1
    · rw [commit_accepted_eq db c i op s hopv hsv]
      intro c' i'
      by_cases hkey : c' = c ∧ i' = i
      · obtain ⟨rfl, rfl⟩ := hkey
        have hol : ((((db._getOpLogSync c' i').2).putLog c' i'
            (db.opLogAt c' i' ++ [some op]))._writeSnapshotSync c' i' s).opLogAt c' i' =
            db.opLogAt c' i' ++ [some op] := by
          rw [opLogAt_writeSnap, opLogAt_putLog_self]
        cases ht : strTruthy s.type
        · have hd := docAt_writeSnap_self_falsy
            (((db._getOpLogSync c' i').2).putLog c' i' (db.opLogAt c' i' ++ [some op]))
            c' i' s ht
          unfold MemoryDB._getSnapshotSync
          rw [hd]
        · have hd := docAt_writeSnap_self_truthy
            (((db._getOpLogSync c' i').2).putLog c' i' (db.opLogAt c' i' ++ [some op]))
            c' i' s ht
          unfold MemoryDB._getSnapshotSync
          rw [hd]
          show s.v = _
          rw [hsv, getVersionSync_eq, hol]
          simp
      · have hne : c' ≠ c ∨ i' ≠ i := by
          by_cases hc : c' = c
          · right
            intro hi
            exact hkey ⟨hc, hi⟩
          · left
            exact hc
        have hol : ((((db._getOpLogSync c i).2).putLog c i
            (db.opLogAt c i ++ [some op]))._writeSnapshotSync c i s).opLogAt c' i' =
            db.opLogAt c' i' := by
          rw [opLogAt_writeSnap, opLogAt_putLog_ne _ _ _ _ _ _ hne,
            opLogAt_getOpLogSync_snd]
        have hdoc : ((((db._getOpLogSync c i).2).putLog c i
            (db.opLogAt c i ++ [some op]))._writeSnapshotSync c i s).docAt c' i' =
            db.docAt c' i' := by
          rw [docAt_writeSnap_ne _ _ _ _ _ _ hne]
          rfl
        rw [getSnapshotSync_ext _ db c' i' hdoc hol, getVersionSync_eq, hol]
        have h := hinv c' i'
        rw [getVersionSync_eq] at h
        exact h
    · rw [commit_rejected_eq db c i op s (by rw [getVersionSync_eq]; exact hsv)]
      exact hinv

/-- Witness for C2's amended theorem: the invariant holds for the store
after one well-formed commit on the empty store. -/
theorem c2_version_invariant_witness : versionInvariant cexDb1 :=
  c2_version_invariant.2 MemoryDB.empty "c" "d" cexOpA
    ⟨1, some "json", JSON.obj [("x", JSON.num 1)]⟩ c2_version_invariant.1 rfl

theorem alookup_eq_none_forall {α : Type} (m : List (String × α)) (k : String)
    (h : alookup m k = none) : ∀ p ∈ m, p.1 ≠ k := by
  induction m with
  | nil => intro p hp; cases hp
  | cons q rest ih =>
    intro p hp
    by_cases hq : q.1 = k
    · simp [alookup, hq] at h
    · simp [alookup, hq] at h
      rcases List.mem_cons.1 hp with rfl | hp
      · exact hq
      · exact ih h p hp

theorem getSnapshotSync_id (db : MemoryDB) (c j : String) :
    (db._getSnapshotSync c j).id = j := by
  unfold MemoryDB._getSnapshotSync
  cases db.docAt c j <;> rfl

theorem query_snapshots_prop (db : MemoryDB) (mfind : JSON → JSON → Bool)
    (magg : JSON → List JSON → JSON) (c : String) (e : List (String × JSON))
    (P : MemorySnapshot → Prop)
    (hP : ∀ p ∈ (alookup db.docs c).getD [], P (db._getSnapshotSync c p.1)) :
    ∀ sn ∈ (db.query mfind magg c e).snapshots, P sn := by
  intro sn hsn
  simp only [MemoryDB.query] at hsn
  by_cases hagg : jsTruthy ((alookup (normalizeQuery e) "$aggregate").getD JSON.null)
  · simp [hagg] at hsn
  · simp only [hagg, Bool.false_eq_true, if_false] at hsn
    by_cases hcount : jsTruthy ((alookup (normalizeQuery e) "$count").getD JSON.null)
    · simp [hcount] at hsn
    · simp only [hcount, Bool.false_eq_true, if_false] at hsn
      simp only [List.mem_filter] at hsn
      obtain ⟨p, hp, rfl⟩ := List.mem_map.1 hsn.1
      exact hP p hp

theorem jsSlice_zero_len {α : Type} (l : List α) :
    jsSlice l 0 (l.length : Int) = l := by
  have h := jsSlice_nat l 0 l.length
  simpa using h

/-- C7: a successful tombstone commit (accepted commit whose snapshot type
is absent) removes the document from the stored-snapshot map, so no query —
find, count or aggregate mode, under any evaluator and any expression —
returns a snapshot with its id; `getOps` still returns the full history
(the old log plus the one appended op), `_getSnapshotSync` reports version
`currentVersion + 1` equal to the op-log length with absent type and null
data, and the op log is modified only by the appended op. The hypotheses
`op.v = currentVersion` and `snapshot.v = currentVersion + 1` are the
protocol's contract for an accepted commit. -/
theorem c7_tombstone_commit (db : MemoryDB) (c i : String) (op : MOp) (s : MSnapshot)
    (hopv : op.v = some ((db._getVersionSync c i : Nat) : Int))
    (hsv : s.v = ((db._getVersionSync c i : Nat) : Int) + 1)
    (htype : strTruthy s.type = false) :
    (db.commit c i op s).1 = CommitResult.ok ∧
    (∀ (mfind : JSON → JSON → Bool) (magg : JSON → List JSON → JSON)
        (e : List (String × JSON)),
      ∀ sn ∈ (((db.commit c i op s).2).query mfind magg c e).snapshots, sn.id ≠ i) ∧
    ((((db.commit c i op s).2).getOps c i 0 none).1.2 =
      db.opLogAt c i ++ [some op]) ∧
    (((db.commit c i op s).2)._getSnapshotSync c i =
      ⟨i, ((db._getVersionSync c i : Nat) : Int) + 1, none, JSON.null⟩) ∧
    ((db.commit c i op s).2).opLogAt c i = db.opLogAt c i ++ [some op] := by
  rw [getVersionSync_eq] at hopv hsv
  rw [commit_accepted_eq db c i op s hopv hsv]
  have hlog : (((((db._getOpLogSync c i).2).putLog c i
      (db.opLogAt c i ++ [some op]))._writeSnapshotSync c i s)).opLogAt c i =
      db.opLogAt c i ++ [some op] := by
    rw [opLogAt_writeSnap, opLogAt_putLog_self]
  have hd := docAt_writeSnap_self_falsy
    (((db._getOpLogSync c i).2).putLog c i (db.opLogAt c i ++ [some op])) c i s htype
  refine ⟨rfl, ?_, ?_, ?_, hlog⟩
  · intro mfind magg e
    apply query_snapshots_prop
    intro p hp
    rw [getSnapshotSync_id]
    unfold MemoryDB.docAt at hd
    cases hm : alookup ((((db._getOpLogSync c i).2).putLog c i
        (db.opLogAt c i ++ [some op]))._writeSnapshotSync c i s).docs c with
    | none =>
      rw [hm] at hp
      cases hp
    | some m =>
      rw [hm] at hd hp
      simp only [Option.some_bind] at hd
      exact alookup_eq_none_forall m i hd p hp
  · simp only [getOps_eq, Option.getD_none, hlog]
    exact jsSlice_zero_len _
  · have hv : ((((db._getOpLogSync c i).2).putLog c i
        (db.opLogAt c i ++ [some op]))._writeSnapshotSync c i s)._getVersionSync c i =
        (db.opLogAt c i).length + 1 := by
      rw [getVersionSync_eq, hlog]
      simp
    unfold MemoryDB._getSnapshotSync
    simp only [hd]
    rw [hv]
    norm_cast

/-- Witness for C7: deleting the one committed document of `cexDb1` with a
tombstone commit at version 2. -/
theorem c7_tombstone_commit_witness :
    (cexDb1.commit "c" "d" ⟨some 1, JSON.str "del"⟩ ⟨2, none, JSON.null⟩).1 =
      CommitResult.ok ∧
    (((cexDb1.commit "c" "d" ⟨some 1, JSON.str "del"⟩
        ⟨2, none, JSON.null⟩).2).query mfindAll maggNull "c"
        []).snapshots.all (fun sn => sn.id != "d") = true ∧
    (((cexDb1.commit "c" "d" ⟨some 1, JSON.str "del"⟩
        ⟨2, none, JSON.null⟩).2).getOps "c" "d" 0 none).1.2 =
      cexDb1.opLogAt "c" "d" ++ [some ⟨some 1, JSON.str "del"⟩] ∧
    ((cexDb1.commit "c" "d" ⟨some 1, JSON.str "del"⟩
        ⟨2, none, JSON.null⟩).2)._getSnapshotSync "c" "d" =
      ⟨"d", ((cexDb1._getVersionSync "c" "d" : Nat) : Int) + 1, none, JSON.null⟩ := by
  have h := c7_tombstone_commit cexDb1 "c" "d" ⟨some 1, JSON.str "del"⟩
    ⟨2, none, JSON.null⟩ rfl (by decide) rfl
  refine ⟨h.1, ?_, h.2.2.1, h.2.2.2.1⟩
  apply List.all_eq_true.mpr
  intro sn hsn
  have hne := h.2.1 mfindAll maggNull [] sn hsn
  simpa using hne

theorem cursorOperators_eq_some {k t : String} (h : cursorOperators k = some t) :
    (k = "$limit" ∧ t = "limit") ∨ (k = "$skip" ∧ t = "skip") := by
  unfold cursorOperators at h
  by_cases h1 : k = "$limit"
  · simp only [h1, if_true] at h
    exact Or.inl ⟨h1, (Option.some.inj h).symm⟩
  · by_cases h2 : k = "$skip"
    · simp only [h1, if_false, h2, if_true] at h
      exact Or.inr ⟨h2, (Option.some.inj h).symm⟩
    · simp [h1, h2] at h

theorem cursor_ne_query {k t : String} (h : cursorOperators k = some t) :
    k ≠ "$query" := by
  rcases cursorOperators_eq_some h with ⟨rfl, _⟩ | ⟨rfl, _⟩ <;> decide

theorem cursor_ne_findOptions {k t : String} (h : cursorOperators k = some t) :
    k ≠ "$findOptions" := by
  rcases cursorOperators_eq_some h with ⟨rfl, _⟩ | ⟨rfl, _⟩ <;> decide

theorem alookup_append_single {α : Type} (e : List (String × α)) (k0 key : String)
    (v0 : α) (h : key ≠ k0) : alookup (e ++ [(k0, v0)]) key = alookup e key := by
  have h' : ¬ k0 = key := fun hh => h hh.symm
  induction e with
  | nil => simp [alookup, h']
  | cons p rest ih =>
    by_cases hp : p.1 = key
    · simp [alookup, hp]
    · simp [alookup, hp, ih]

theorem normFlat_append_cursor (e : List (String × JSON)) (acc : List (String × JSON))
    (ck tk : String) (v : JSON) (hc : cursorOperators ck = some tk) :
    ∃ fo, normFlat acc (e ++ [(ck, v)]) =
      aset (normFlat acc e) "$findOptions" (JSON.obj fo) := by
  have hmf : metaOperators ck = false := by
    rcases cursorOperators_eq_some hc with ⟨rfl, _⟩ | ⟨rfl, _⟩ <;> decide
  induction e generalizing acc with
  | nil =>
    refine ⟨aset (match alookup acc "$findOptions" with
      | some (JSON.obj fo) => fo
      | _ => []) tk v, ?_⟩
    simp only [List.nil_append, normFlat, hmf, Bool.false_eq_true, if_false, hc]
  | cons p rest ih =>
    obtain ⟨k', v'⟩ := p
    cases hm : metaOperators k' with
    | true => simpa only [List.cons_append, normFlat, hm, if_true] using ih _
    | false =>
      cases hcc : cursorOperators k' with
      | some t' =>
        simpa only [List.cons_append, normFlat, hm, Bool.false_eq_true, if_false, hcc]
          using ih _
      | none =>
        simpa only [List.cons_append, normFlat, hm, Bool.false_eq_true, if_false, hcc]
          using ih _

theorem normalizeQuery_append_limit (e : List (String × JSON)) (k : JSON)
    (key : String) (h1 : key ≠ "$limit") (h2 : key ≠ "$findOptions") :
    alookup (normalizeQuery (e ++ [("$limit", k)])) key =
      alookup (normalizeQuery e) key := by
  unfold normalizeQuery
  rw [alookup_append_single e "$limit" "$query" k (by decide)]
  cases ht : jsTruthy ((alookup e "$query").getD JSON.null) with
  | true =>
    simp only [ht, if_true]
    exact alookup_append_single e "$limit" key k h1
  | false =>
    simp only [ht, Bool.false_eq_true, if_false]
    obtain ⟨fo, hfo⟩ := normFlat_append_cursor e [("$query", JSON.obj [])]
      "$limit" "limit" k rfl
    rw [hfo, alookup_aset_ne _ _ _ _ h2]

/-- C9 counterexample: against a two-document collection, a find-mode query
carrying `$limit: 1` returns both documents — the recorded `$findOptions`
are never handed to the evaluator — and its result is identical to the same
query without `$limit`, so the cursor operator does not influence the
evaluation. -/
theorem c9_limit_counterexample :
    (c9db.query mfindAll maggNull "q" [("$limit", JSON.num 1)]).snapshots.length = 2 ∧
    (c9db.query mfindAll maggNull "q" [("$limit", JSON.num 1)]).snapshots =
      (c9db.query mfindAll maggNull "q" []).snapshots :=
  ⟨rfl, rfl⟩

/-- C9 amended: normalization records `$limit` under `$findOptions`, but the
executor reads only `$query`, `$count` and `$aggregate` from the normalized
query and passes no options to the evaluator, so adding `$limit` to any
query expression leaves the query's outcome unchanged for every store and
every evaluator. -/
theorem c9_limit_not_forwarded (db : MemoryDB) (mfind : JSON → JSON → Bool)
    (magg : JSON → List JSON → JSON) (c : String) (e : List (String × JSON))
    (k : JSON) :
    db.query mfind magg c (e ++ [("$limit", k)]) = db.query mfind magg c e := by
  simp only [MemoryDB.query]
  rw [normalizeQuery_append_limit e k "$aggregate" (by decide) (by decide),
    normalizeQuery_append_limit e k "$query" (by decide) (by decide),
    normalizeQuery_append_limit e k "$count" (by decide) (by decide)]

theorem buildCands_spec (docs : List (String × HDoc)) (h : Heap) :
    (∃ ext, (buildCands docs h).1 = h ++ ext) ∧
    ∀ c ∈ (buildCands docs h).2,
      hlookup (buildCands docs h).1 c.1 "__snapshot" = some (HVal.ref (c.1 + 1)) ∧
      hlookup (buildCands docs h).1 (c.1 + 1) "data" = some (HVal.ref c.1) := by
  induction docs generalizing h with
  | nil =>
    refine ⟨⟨[], by simp [buildCands]⟩, ?_⟩
    intro c hc
    simp [buildCands] at hc
  | cons p rest ih =>
    obtain ⟨id, doc⟩ := p
    obtain ⟨⟨ext, hext⟩, hcands⟩ := ih
      (h ++ [aset (doc.data.map (fun q => (q.1, HVal.prim q.2))) "__snapshot"
          (HVal.ref (h.length + 1)),
        [("id", HVal.prim (JSON.str id)), ("v", HVal.prim (JSON.num doc.v)),
         ("type", HVal.prim (JSON.str doc.type)), ("data", HVal.ref h.length)]])
    constructor
    · refine ⟨[aset (doc.data.map (fun q => (q.1, HVal.prim q.2))) "__snapshot"
          (HVal.ref (h.length + 1)),
        [("id", HVal.prim (JSON.str id)), ("v", HVal.prim (JSON.num doc.v)),
         ("type", HVal.prim (JSON.str doc.type)), ("data", HVal.ref h.length)]] ++ ext, ?_⟩
      simp only [buildCands, hext, List.append_assoc]
    · intro c hc
      simp only [buildCands, List.mem_cons] at hc
      rcases hc with rfl | hc
      · constructor
        · show hlookup (buildCands rest _).1 h.length "__snapshot" = _
          rw [hext]
          unfold hlookup
          rw [List.append_assoc, List.get?_append_right (le_refl h.length)]
          simp [alookup_aset_self]
        · show hlookup (buildCands rest _).1 (h.length + 1) "data" = _
          rw [hext]
          unfold hlookup
          rw [List.append_assoc,
            List.get?_append_right (by omega : h.length ≤ h.length + 1)]
          simp [alookup]
      · exact hcands c hc

/-- C10: every snapshot returned by a find-mode query refers, through its
`data` field, to a data object whose `__snapshot` property refers back to
that same snapshot: `s.data.__snapshot == s`. The back-reference installed
for match resolution is never stripped, so returned snapshots carry a
cyclic object graph and their data is not a clean copy of the committed
document body. -/
theorem c10_snapshot_backref (docs : List (String × HDoc))
    (p : List (String × JSON) → Bool) :
    ∀ s ∈ (queryFindHeap docs p).2, ∃ d,
      hlookup (queryFindHeap docs p).1 s "data" = some (HVal.ref d) ∧
      hlookup (queryFindHeap docs p).1 d "__snapshot" = some (HVal.ref s) := by
  intro s hs
  simp only [queryFindHeap] at hs ⊢
  obtain ⟨c, hc, hres⟩ := List.mem_map.1 hs
  have hcand : c ∈ (buildCands docs []).2 := (List.mem_filter.1 hc).1
  have hspec := (buildCands_spec docs []).2 c hcand
  simp only [hspec.1] at hres
  refine ⟨c.1, ?_, ?_⟩
  · rw [← hres]
    exact hspec.2
  · rw [← hres]
    exact hspec.1

/-- Witness for C10: a one-document collection under a match-all evaluator
returns the snapshot at heap address 1, whose data (address 0) points back
to it. -/
theorem c10_snapshot_backref_witness :
    (1 : Nat) ∈ (queryFindHeap [("x", ⟨1, "json", [("a", JSON.num 1)]⟩)]
      (fun _ => true)).2 ∧
    ∃ d, hlookup (queryFindHeap [("x", ⟨1, "json", [("a", JSON.num 1)]⟩)]
        (fun _ => true)).1 1 "data" = some (HVal.ref d) ∧
      hlookup (queryFindHeap [("x", ⟨1, "json", [("a", JSON.num 1)]⟩)]
        (fun _ => true)).1 d "__snapshot" = some (HVal.ref 1) := by
  have hmem : (1 : Nat) ∈ (queryFindHeap [("x", ⟨1, "json", [("a", JSON.num 1)]⟩)]
      (fun _ => true)).2 := List.mem_singleton.mpr rfl
  exact ⟨hmem, c10_snapshot_backref _ _ 1 hmem⟩

